import Mathlib

/-!
Verification development for the back-kairos vocational-guidance backend.

The definitions below are a shallow embedding of the profile-scoring and
career-recommendation pipeline of the repository:

- app/services/model_service.py : answer aggregation, NLP scoring,
  final-profile computation and result persistence;
- app/services/gemini_helper.py : catalog-restricted career recommendation;
- app/career.py : the static career catalog;
- app/routers/chat.py : session deletion (manual cascade).

Numbers are modelled as exact rationals, the relational tables as lists of
records, JSON payloads as an inductive value type, and the opaque
third-party ML artifacts (sklearn vectorizer, centroids, random forest,
Gemini) as black-box function parameters of the environment.
-/

namespace Kairos

/-- Python str.strip modelled on the character list of a string: drop
whitespace from both ends. -/
def pyStrip (s : String) : String :=
  ⟨((s.toList.dropWhile Char.isWhitespace).reverse.dropWhile Char.isWhitespace).reverse⟩

/-- Helper for pySplitWords: accumulates the current word while scanning. -/
def pyWordsAux : List Char → List Char → List (List Char)
  | [], cur => if cur.isEmpty then [] else [cur.reverse]
  | c :: cs, cur =>
    if c.isWhitespace then
      if cur.isEmpty then pyWordsAux cs [] else cur.reverse :: pyWordsAux cs []
    else pyWordsAux cs (c :: cur)

/-- Python str.split with no argument: the maximal whitespace-free words of
the string, ignoring leading and trailing whitespace. -/
def pySplitWords (s : String) : List String :=
  (pyWordsAux s.toList []).map (fun l => ⟨l⟩)

/-- Helper for pySplitOnChar: splits a character list at every occurrence of
the separator, keeping empty pieces as Python str.split does. -/
def pySplitOnCharAux (sep : Char) : List Char → List Char → List (List Char)
  | [], cur => [cur.reverse]
  | c :: cs, cur =>
    if c = sep then cur.reverse :: pySplitOnCharAux sep cs []
    else pySplitOnCharAux sep cs (c :: cur)

/-- Python str.split with a one-character separator, keeping empty pieces. -/
def pySplitOnChar (sep : Char) (s : String) : List String :=
  (pySplitOnCharAux sep s.toList []).map (fun l => ⟨l⟩)

/-- Python str.upper for the characters occurring in the category tags of
this code base: ASCII letters plus the accented i of the Spanish synonym
keys in model_service.py. -/
def pyUpperChar (c : Char) : Char :=
  if c = 'í' then 'Í' else c.toUpper

/-- Python str.upper on a whole string, via pyUpperChar. -/
def pyUpper (s : String) : String :=
  ⟨s.toList.map pyUpperChar⟩

/-- Helper for pyStartsWith on character lists. -/
def charsStartWith : List Char → List Char → Bool
  | _, [] => true
  | [], _ :: _ => false
  | c :: cs, p :: ps => c = p && charsStartWith cs ps

/-- Python str.startswith via character lists. -/
def pyStartsWith (s pat : String) : Bool :=
  charsStartWith s.toList pat.toList

/-- Python str.replace on the one-character pattern used by the code:
every comma becomes a dot. -/
def pyReplaceCommaDot (s : String) : String :=
  ⟨s.toList.map (fun c => if c = ',' then '.' else c)⟩

/-- Whether a string consists only of decimal digits (and is nonempty). -/
def allDigits (cs : List Char) : Bool :=
  cs.all Char.isDigit

/-- Numeric value of a digit list, most significant digit first. -/
def digitsToNat (cs : List Char) : ℕ :=
  cs.foldl (fun n c => n * 10 + (c.toNat - 48)) 0

/-- Python float applied to a string, restricted to finite decimal literals
with an optional sign, an integer part and an optional fractional part.
Returns none exactly when Python float would raise ValueError on such
shapes; exotic accepted spellings (exponents, inf, nan, underscores) are
outside the model. -/
def parseDecimal (s : String) : Option ℚ :=
  let body := (pyStrip s).toList
  let signed : ℚ × List Char :=
    match body with
    | '+' :: rest => (1, rest)
    | '-' :: rest => (-1, rest)
    | rest => (1, rest)
  let sign := signed.1
  let intPart := signed.2.takeWhile Char.isDigit
  let rest := signed.2.dropWhile Char.isDigit
  match rest with
  | [] =>
    if intPart.isEmpty then none
    else some (sign * (digitsToNat intPart : ℚ))
  | '.' :: fracPart =>
    if allDigits fracPart ∧ ¬(intPart.isEmpty ∧ fracPart.isEmpty) then
      some (sign * ((digitsToNat intPart : ℚ) +
        (digitsToNat fracPart : ℚ) / (10 ^ fracPart.length)))
    else none
  | _ => none

/-- JSON-like values as stored in the user_answers.selected_options column. -/
inductive JVal where
  | jnull : JVal
  | jbool : Bool → JVal
  | jnum : ℚ → JVal
  | jstr : String → JVal
  | jarr : List JVal → JVal
  | jobj : List (String × JVal) → JVal

/-- Python float applied to a JSON value: numbers pass through, numeric
strings are parsed, booleans coerce to 0 or 1, and every other shape makes
float raise, modelled as none. -/
def pyFloat : JVal → Option ℚ
  | .jnum q => some q
  | .jstr s => parseDecimal s
  | .jbool b => some (if b then 1 else 0)
  | _ => none

/-- Stable insertion used by pySortBy. -/
def pyInsertBy {α : Type} (le : α → α → Bool) (x : α) : List α → List α
  | [] => [x]
  | y :: ys => if le y x then y :: pyInsertBy le x ys else x :: y :: ys

/-- Python list.sort with a key comparator: a stable sort. Any stable sort
agrees with the Python one for a total preorder comparator, so a stable
insertion sort is used because it reduces structurally. -/
def pySortBy {α : Type} (le : α → α → Bool) (l : List α) : List α :=
  l.foldl (fun acc x => pyInsertBy le x acc) []

/-- Nearest integer to a rational, ties going to the even integer, as
Python round does. -/
def roundHalfEven (x : ℚ) : ℤ :=
  let fl : ℤ := ⌊x⌋
  let frac := x - (fl : ℚ)
  if frac < 1/2 then fl
  else if 1/2 < frac then fl + 1
  else if fl % 2 = 0 then fl else fl + 1

/-- Python round(x, 4) on exact rationals: the nearest multiple of 1/10000,
ties going to the even multiple. -/
def pyRound4 (q : ℚ) : ℚ :=
  (roundHalfEven (q * 10000) : ℚ) / 10000

/-- Row of the questions table (app/models.py, class Question); only the
columns the pipeline reads are modelled. -/
structure Question where
  question_id : ℕ
  question_type : Option String
  category : Option String
deriving Repr, DecidableEq

/-- Row of the user_answers table (app/models.py, class UserAnswer). -/
structure UserAnswer where
  answer_id : ℕ
  evaluation_id : ℕ
  question_id : ℕ
  answer_text : Option String
  selected_options : Option JVal

/-- Row of the chat_messages table (app/models.py, class ChatMessage);
sent_at is modelled as a natural timestamp. -/
structure ChatMessage where
  message_id : ℕ
  session_id : ℕ
  message_type : String
  content : String
  sent_at : ℕ
deriving Repr, DecidableEq

/-- Row of the chat_sessions table (app/models.py, class ChatSession). -/
structure ChatSession where
  session_id : ℕ
  user_id : ℕ
  chat_mode : String
deriving Repr, DecidableEq

/-- Row of the evaluations table (app/models.py, class Evaluation). -/
structure Evaluation where
  evaluation_id : ℕ
  user_id : ℕ
  session_id : ℕ
  evaluation_mode : String
deriving Repr, DecidableEq

/-- One recommended career as stored in top_careers: the dicts built in
gemini_helper.py with keys career, category and explanation. -/
structure RecItem where
  career : String
  category : String
  explanation : String
deriving Repr, DecidableEq

/-- Row of the evaluation_results table (app/models.py,
class EvaluationResult); the JSON columns riasec_scores and metrics are
string-keyed rational maps. -/
structure EvaluationResult where
  evaluation_id : ℕ
  riasec_scores : List (String × ℚ)
  top_careers : List RecItem
  metrics : List (String × ℚ)
deriving Repr, DecidableEq

/-- Row of the student_feedback table; only the owning evaluation matters
for deletion. -/
structure StudentFeedback where
  feedback_id : ℕ
  evaluation_id : ℕ
deriving Repr, DecidableEq

/-- Row of the evaluator_comments table; only the owning evaluation matters
for deletion. -/
structure EvaluatorComment where
  comment_id : ℕ
  evaluation_id : ℕ
deriving Repr, DecidableEq

/-- The relational state the pipeline touches: one list per table. -/
structure DBState where
  chat_sessions : List ChatSession
  chat_messages : List ChatMessage
  evaluations : List Evaluation
  questions : List Question
  user_answers : List UserAnswer
  evaluation_results : List EvaluationResult
  student_feedback : List StudentFeedback
  evaluator_comments : List EvaluatorComment

/-- The fixed RIASEC dimension order (model_service.py, riasec_types). -/
def riasec_types : List String :=
  ["R", "I", "A", "S", "E", "C"]

/-- The synonym table normalizing a category suffix to a RIASEC letter
(model_service.py, lines 122-129). -/
def synonyms : List (String × String) :=
  [("R", "R"), ("REALISTA", "R"), ("REALISTIC", "R"),
   ("I", "I"), ("INVESTIGATIVO", "I"), ("INVESTIGATIVE", "I"), ("INVESTIGADOR", "I"),
   ("A", "A"), ("ARTISTICO", "A"), ("ARTÍSTICO", "A"), ("ARTISTIC", "A"),
   ("S", "S"), ("SOCIAL", "S"),
   ("E", "E"), ("EMPRENDEDOR", "E"), ("ENTERPRISING", "E"),
   ("C", "C"), ("CONVENCIONAL", "C"), ("CONVENTIONAL", "C")]

/-- First value bound to a key in an association list, mirroring a lookup in
a Python dict with distinct keys. -/
def slookup {α : Type} (k : String) : List (String × α) → Option α
  | [] => none
  | p :: ps => if p.1 = k then some p.2 else slookup k ps

/-- RIASEC letter derived from a question category tag
(model_service.py, lines 116-132): the tag must start with riasec_, its last
underscore-separated piece is uppercased and looked up in the synonym table,
falling back to the piece itself when it already is a RIASEC letter. -/
def catKey (category : Option String) : Option String :=
  match category with
  | none => none
  | some c =>
    if c ≠ "" ∧ pyStartsWith c "riasec_" = true then
      let last := (pySplitOnChar '_' c).getLastD ""
      let keyRaw := pyUpper last
      match slookup keyRaw synonyms with
      | some v => some v
      | none => if keyRaw ∈ riasec_types then some keyRaw else none
    else none

/-- Truthiness of an optional string, as Python evaluates it: present and
nonempty. -/
def truthy : Option String → Bool
  | none => false
  | some s => s ≠ ""

/-- Numeric scale value of one answer row (model_service.py, lines 138-159).
The selected_options dict is probed for the keys scale, value and selected
in that order; a failed float coercion of scale or value raises and is
caught by the enclosing except, aborting the fallback, while a failed
coercion of the first selected element is swallowed by the inner except.
When no value was produced, a scale question with truthy answer_text has
that text stripped, commas dotted, and coerced; a failure there is caught
as well. The overall except maps every raise to no value. -/
def scaleVal (ans : UserAnswer) (q : Question) : Option ℚ :=
  let fromOpts : Except Unit (Option ℚ) :=
    match ans.selected_options with
    | some (.jobj fields) =>
      if fields.isEmpty then .ok none
      else
        match slookup "scale" fields with
        | some v =>
          match pyFloat v with
          | some x => .ok (some x)
          | none => .error ()
        | none =>
          match slookup "value" fields with
          | some v =>
            match pyFloat v with
            | some x => .ok (some x)
            | none => .error ()
          | none =>
            match slookup "selected" fields with
            | some (.jarr (x :: _)) => .ok (pyFloat x)
            | _ => .ok none
    | _ => .ok none
  match fromOpts with
  | .error _ => none
  | .ok (some x) => some x
  | .ok none =>
    if q.question_type = some "scale" ∧ truthy ans.answer_text = true then
      parseDecimal (pyReplaceCommaDot (pyStrip (ans.answer_text.getD "")))
    else none

/-- Scores dict with every RIASEC key at zero. -/
def zeroScores : List (String × ℚ) :=
  riasec_types.map (fun k => (k, 0))

/-- In-place addition on one key of a scores dict, as the Python
mcq_scores update does; keys are never added. -/
def addScore (m : List (String × ℚ)) (k : String) (v : ℚ) : List (String × ℚ) :=
  m.map (fun p => if p.1 = k then (p.1, p.2 + v) else p)

/-- First element of a list satisfying a predicate, mirroring a query
filtered with first in SQLAlchemy. -/
def firstWhere {α : Type} (p : α → Prop) [DecidablePred p] : List α → Option α
  | [] => none
  | x :: xs => if p x then some x else firstWhere p xs

/-- All elements of a list satisfying a predicate, mirroring a filtered
query returning all rows. -/
def selWhere {α : Type} (p : α → Prop) [DecidablePred p] : List α → List α
  | [] => []
  | x :: xs => if p x then x :: selWhere p xs else selWhere p xs

/-- The joined answer-question rows of one evaluation
(model_service.py, lines 104-109): each answer of the evaluation paired
with its question, answers without a matching question dropped by the
inner join; row order follows answer insertion order. -/
def rowsFor (db : DBState) (evaluation_id : ℕ) : List (UserAnswer × Question) :=
  (selWhere (fun a => a.evaluation_id = evaluation_id) db.user_answers).filterMap
    (fun a => (firstWhere (fun q => q.question_id = a.question_id) db.questions).map
      (fun q => (a, q)))

/-- One iteration of the aggregation loop (model_service.py, lines 115-162):
appends stripped truthy answer text to the text parts and adds the scale
value to the dimension sum when both the value and a recognized category
key are present. -/
def aggStep (acc : List String × List (String × ℚ)) (row : UserAnswer × Question) :
    List String × List (String × ℚ) :=
  let texts :=
    match row.1.answer_text with
    | some t => if t ≠ "" then acc.1 ++ [pyStrip t] else acc.1
    | none => acc.1
  let scores :=
    match scaleVal row.1 row.2, catKey row.2.category with
    | some v, some k => if (slookup k acc.2).isSome then addScore acc.2 k v else acc.2
    | _, _ => acc.2
  (texts, scores)

/-- Whitespace normalization applied to every text part before dedup
(model_service.py, lines 175-176): strip, split on whitespace, rejoin with
single spaces. -/
def normalizeText (s : String) : String :=
  " ".intercalate (pySplitWords (pyStrip s))

/-- Dedup of the collected text parts (model_service.py, lines 177-183):
falsy parts are dropped, each part is whitespace-normalized, and only the
first occurrence of each nonempty normalized part is kept, in order. The
Python seen set always holds exactly the elements of the accumulator, so
membership in the accumulator models membership in seen. -/
def dedupNormalized (parts : List String) : List String :=
  (selWhere (fun t => t ≠ "") parts).foldl
    (fun acc t =>
      let nt := normalizeText t
      if nt ≠ "" ∧ nt ∉ acc then acc ++ [nt] else acc) []

/-- The aggregate output: the newline-joined deduplicated text and the
per-dimension sums dict. -/
structure AggOut where
  answers_text : String
  mcq_scores : List (String × ℚ)
deriving Repr, DecidableEq

/-- Aggregation of the answers of one evaluation
(model_service.py, aggregate_answers_for_evaluation, lines 94-187):
a missing evaluation yields empty text and all-zero sums; otherwise the
joined rows are folded for text parts and dimension sums, the user chat
messages of the session are appended to the text parts in sent order, and
the parts are deduplicated, normalized and newline-joined. -/
def aggregate_answers_for_evaluation (db : DBState) (evaluation_id : ℕ) : AggOut :=
  match firstWhere (fun e => e.evaluation_id = evaluation_id) db.evaluations with
  | none => ⟨"", riasec_types.map (fun k => (k, 0))⟩
  | some evaluation =>
    let folded := (rowsFor db evaluation_id).foldl aggStep ([], zeroScores)
    let chat_msgs := pySortBy (fun a b => a.sent_at ≤ b.sent_at)
      (selWhere (fun m => m.session_id = evaluation.session_id ∧ m.message_type = "user")
        db.chat_messages)
    let text_parts := folded.1 ++ chat_msgs.map (fun m => m.content)
    ⟨"\n".intercalate (dedupNormalized text_parts), folded.2⟩

/-- The authorized career catalog (app/career.py, MAPA_CARRERAS). -/
def MAPA_CARRERAS : List (String × List String) :=
  [("Tecnología",
    ["Ingeniería de Software", "Ciencia de Datos", "Ciberseguridad",
     "Ingeniería en Redes y Telecomunicaciones", "Desarrollo Web y Móvil (Full-Stack)",
     "Inteligencia Artificial y Machine Learning", "Ingeniería en Mecatrónica"]),
   ("Ciencias Sociales",
    ["Psicología", "Sociología", "Antropología", "Trabajo Social", "Ciencias Políticas",
     "Relaciones Internacionales", "Historia", "Derecho"]),
   ("Arte y Diseño",
    ["Diseño Gráfico", "Diseño de Modas", "Artes Visuales (Pintura, Escultura)",
     "Diseño Industrial", "Arquitectura", "Comunicación Audiovisual y Cine",
     "Diseño de Interiores", "Música"]),
   ("Ciencias Naturales",
    ["Biología", "Química", "Física", "Geología", "Ciencias Ambientales",
     "Biotecnología", "Matemáticas Puras / Estadística"]),
   ("Negocios y Economía",
    ["Administración de Empresas", "Contabilidad y Finanzas", "Marketing (Mercadotecnia)",
     "Economía", "Negocios Internacionales", "Gestión de Recursos Humanos",
     "Logística y Cadena de Suministro"])]

/-- One career dict proposed by the language model, after JSON parsing
(gemini_helper.py): the keys career, category and explanation may each be
absent. -/
structure LLMItem where
  career : Option String
  category : Option String
  explanation : Option String

/-- One entry of the top-3 category list passed to the recommendation
helper (model_service.py, line 358): a category name and its probability. -/
structure CatScore where
  category : String
  score : ℚ
deriving Repr, DecidableEq

/-- The ambient module state after load_models_if_needed plus the external
collaborators. The three booleans say whether the corresponding joblib
artifact loaded; sim is the opaque vectorizer-and-centroid cosine
similarity of get_nlp_scores; rf_proba is the opaque random-forest
class-probability predictor; llm is the parsed response of a successful
Gemini call, or none when the client is unavailable, the call fails, or
its output does not parse. -/
structure Env where
  rf_loaded : Bool
  vectorizer_loaded : Bool
  centroids_loaded : Bool
  sim : String → String → ℚ
  rf_proba : List ℚ → List (String × ℚ)
  llm : Option (List LLMItem)

/-- RIASEC similarity scores of a text (model_service.py, get_nlp_scores,
lines 191-208): all zeros when the text is empty or the vectorizer or
centroids are missing, otherwise the cosine similarity against each
centroid in canonical order. -/
def get_nlp_scores (env : Env) (text : String) : List (String × ℚ) :=
  if text = "" ∨ env.vectorizer_loaded = false ∨ env.centroids_loaded = false then
    riasec_types.map (fun r => (r, 0))
  else
    riasec_types.map (fun r => (r, env.sim text r))

/-- Final profile computation (model_service.py, calculate_final_profile,
lines 212-230): each dimension sum is scaled by the theoretical maximum of
30 for MCQ and 1 for NLP, the two signals are combined with the given
weights, and the profile is also rescaled back to the model input scale. -/
def calculate_final_profile (mcq_scores nlp_scores : List (String × ℚ))
    (weight_mcq weight_nlp : ℚ) : List (String × ℚ) × List ℚ :=
  let max_mcq_per_dim : ℚ := 6 * 5
  let max_nlp_per_dim : ℚ := 1
  let profile_0_to_1 := riasec_types.map (fun r =>
    let scaled_mcq :=
      if 0 < max_mcq_per_dim then (slookup r mcq_scores).getD 0 / max_mcq_per_dim else 0
    let scaled_nlp :=
      if 0 < max_nlp_per_dim then (slookup r nlp_scores).getD 0 / max_nlp_per_dim else 0
    (r, weight_mcq * scaled_mcq + weight_nlp * scaled_nlp))
  let profile_for_model := riasec_types.map (fun r =>
    (slookup r profile_0_to_1).getD 0 * max_mcq_per_dim)
  (profile_0_to_1, profile_for_model)

/-- Chat-mode resolution (model_service.py, lines 270-277): the chat_mode
of the session of the evaluation when truthy, else the evaluation mode of
the evaluation; none when the evaluation record is missing. -/
def resolved_chat_mode (db : DBState) (evaluation_id : ℕ) : Option String :=
  match firstWhere (fun e => e.evaluation_id = evaluation_id) db.evaluations with
  | none => none
  | some ev =>
    match firstWhere (fun s => s.session_id = ev.session_id) db.chat_sessions with
    | some s => if s.chat_mode = "" then some ev.evaluation_mode else some s.chat_mode
    | none => some ev.evaluation_mode

/-- Weight selection by mode (model_service.py, lines 278-281): open mode
uses only the NLP signal, every other mode blends MCQ and NLP 70/30. -/
def mode_weights (chat_mode : Option String) : ℚ × ℚ :=
  if chat_mode = some "open" then (0, 1) else (7/10, 3/10)

/-- The categories extracted from the top-3 list
(gemini_helper.py, lines 121-128): items with a falsy category are
skipped, the rest keep their order, duplicates included. -/
def orderedCategories (top3_categories : List CatScore) : List String :=
  (selWhere (fun i => i.category ≠ "") top3_categories).map (fun i => i.category)

/-- The authorized careers of a category: the catalog list, empty for an
unknown category (gemini_helper.py, line 128, via MAPA_CARRERAS.get). -/
def allowedCareers (cat : String) : List String :=
  (slookup cat MAPA_CARRERAS).getD []

/-- Python insertion order dict keys for the by_cat dict: first occurrence
of each category. -/
def dedupKeys (cats : List String) : List String :=
  cats.foldl (fun acc c => if c ∈ acc then acc else acc ++ [c]) []

/-- Append one item to the list bound to a key of the by_cat dict. -/
def updAt (d : List (String × List RecItem)) (k : String) (it : RecItem) :
    List (String × List RecItem) :=
  d.map (fun p => if p.1 = k then (p.1, p.2 ++ [it]) else p)

/-- Python x or default on an optional string: the string when truthy,
else the default. -/
def orDefault (o : Option String) (d : String) : String :=
  match o with
  | some s => if s = "" then d else s
  | none => d

/-- One iteration of the proposal filter (gemini_helper.py, lines 164-173):
a proposed item is kept only when its category is an ordered category and
its career is in the authorized catalog of that category, and the category
holds fewer than 3 items so far. -/
def filterStep (ordered : List String) (d : List (String × List RecItem)) (item : LLMItem) :
    List (String × List RecItem) :=
  match item.category, item.career with
  | some cat, some name =>
    if cat ∈ ordered ∧ name ∈ allowedCareers cat then
      if ((slookup cat d).getD []).length < 3 then
        updAt d cat ⟨name, cat,
          orDefault item.explanation "Seleccionada del catálogo local según tu perfil."⟩
      else d
    else d
  | _, _ => d

/-- Inner fill loop over the authorized names of one category
(gemini_helper.py, lines 177-186): stop at 3 items, skip names already
present in the snapshot taken before the loop, append the rest. -/
def fillNames (cat : String) (already : List String) :
    List (String × List RecItem) → List String → List (String × List RecItem)
  | d, [] => d
  | d, name :: rest =>
    if 3 ≤ ((slookup cat d).getD []).length then d
    else if name ∈ already then fillNames cat already d rest
    else fillNames cat already
      (updAt d cat ⟨name, cat, "Seleccionada del catálogo local según tu perfil RIASEC."⟩) rest

/-- Outer fill loop (gemini_helper.py, lines 175-186): for every ordered
category, top up to 3 items from the authorized catalog. -/
def fillAll (ordered : List String) (d : List (String × List RecItem)) :
    List (String × List RecItem) :=
  ordered.foldl (fun d0 cat =>
    fillNames cat (((slookup cat d0).getD []).map (fun x => x.career)) d0
      (allowedCareers cat)) d

/-- Flattening of the by_cat dict in category order
(gemini_helper.py, lines 188-190), taking at most 3 per key visit. -/
def flattenByCat (ordered : List String) (d : List (String × List RecItem)) : List RecItem :=
  ordered.foldl (fun acc cat => acc ++ ((slookup cat d).getD []).take 3) []

/-- The filter-and-fill step of the recommendation helper
(gemini_helper.py, filter_and_fill, lines 161-191). -/
def filter_and_fill (ordered : List String) (proposed : List LLMItem) : List RecItem :=
  let init := (dedupKeys ordered).map (fun c => (c, ([] : List RecItem)))
  flattenByCat ordered (fillAll ordered (proposed.foldl (filterStep ordered) init))

/-- Catalog-restricted career recommendation
(gemini_helper.py, generate_specific_career_recommendations,
lines 107-228): a parsed model response is filtered to the catalog and
topped up; otherwise the deterministic fallback takes up to 3 catalog
careers per ordered category. The riasec profile and free text feed only
the prompt of the opaque model and do not otherwise affect the output. -/
def generate_specific_career_recommendations (llm : Option (List LLMItem))
    (riasec_profile : List (String × ℚ)) (top3_categories : List CatScore)
    (free_text : String) : List RecItem :=
  let ordered := orderedCategories top3_categories
  match llm with
  | some proposed => filter_and_fill ordered proposed
  | none =>
    ordered.foldl (fun acc cat =>
      acc ++ ((allowedCareers cat).take 3).map (fun name =>
        (⟨name, cat, "Seleccionada del catálogo autorizado por coincidencia de categoría."⟩ :
          RecItem))) []

/-- The degraded result stored when an artifact is missing
(model_service.py, lines 253-258). -/
def degradedResult (evaluation_id : ℕ) : EvaluationResult :=
  ⟨evaluation_id, riasec_types.map (fun k => (k, 0)), [],
    [("model_accuracy_static", 0), ("error_models_not_loaded", 1)]⟩

/-- The top-3 category list produced by the random forest
(model_service.py, lines 345-358): class probabilities sorted stably by
descending probability, the first three kept with rounded scores. The
feature-name plumbing of lines 291-343 only reorders the input of the
opaque classifier and is folded into the black box rf_proba. -/
def top3Categories (env : Env) (profile_for_model : List ℚ) : List CatScore :=
  let prob_list := pySortBy (fun a b => b.2 ≤ a.2) (env.rf_proba profile_for_model)
  (prob_list.take 3).map (fun p => ⟨p.1, pyRound4 p.2⟩)

/-- The compute-and-store pipeline (model_service.py,
generate_and_save_results, lines 234-381). With a missing artifact the
degraded result is added and committed; otherwise the answers are
aggregated, weights chosen by mode, NLP scores computed, the final profile
built, the random forest ranked, the recommendation helper called, and a
new result row with the rounded profile is added and committed. Returns
the new database state and the stored row. -/
def generate_and_save_results (env : Env) (db : DBState) (evaluation_id : ℕ) :
    DBState × EvaluationResult :=
  if env.rf_loaded = false ∨ env.vectorizer_loaded = false ∨ env.centroids_loaded = false then
    let result_error := degradedResult evaluation_id
    ({ db with evaluation_results := db.evaluation_results ++ [result_error] }, result_error)
  else
    let agg := aggregate_answers_for_evaluation db evaluation_id
    let weights := mode_weights (resolved_chat_mode db evaluation_id)
    let nlp_scores := get_nlp_scores env agg.answers_text
    let pf := calculate_final_profile agg.mcq_scores nlp_scores weights.1 weights.2
    let top3_categories_list := top3Categories env pf.2
    let gemini_results := generate_specific_career_recommendations env.llm pf.1
      top3_categories_list agg.answers_text
    let result : EvaluationResult :=
      ⟨evaluation_id, pf.1.map (fun p => (p.1, pyRound4 p.2)), gemini_results,
        [("model_accuracy_static", 925/1000)]⟩
    ({ db with evaluation_results := db.evaluation_results ++ [result] }, result)

/-- HTTP failure raised by a router handler. -/
inductive HTTPError where
  | notFound : String → HTTPError
deriving Repr, DecidableEq

/-- Session deletion with manual cascade (app/routers/chat.py,
delete_chat_session, lines 610-638): 404 when the session does not belong
to the student; otherwise the messages of the session are deleted, then,
when the first evaluation of the session exists, its answers, results,
feedback and comments and the evaluation itself, and finally the session. -/
def delete_chat_session (db : DBState) (session_id current_user_id : ℕ) :
    Except HTTPError (DBState × String) :=
  match firstWhere (fun s => s.session_id = session_id ∧ s.user_id = current_user_id)
      db.chat_sessions with
  | none => .error (.notFound "Sesión de chat no encontrada")
  | some session =>
    let db1 := { db with
      chat_messages := selWhere (fun m => ¬m.session_id = session_id) db.chat_messages }
    let db2 :=
      match firstWhere (fun e => e.session_id = session_id) db1.evaluations with
      | none => db1
      | some evaluation =>
        { db1 with
          user_answers :=
            selWhere (fun a => ¬a.evaluation_id = evaluation.evaluation_id) db1.user_answers,
          evaluation_results :=
            selWhere (fun r => ¬r.evaluation_id = evaluation.evaluation_id)
              db1.evaluation_results,
          student_feedback :=
            selWhere (fun f => ¬f.evaluation_id = evaluation.evaluation_id)
              db1.student_feedback,
          evaluator_comments :=
            selWhere (fun c => ¬c.evaluation_id = evaluation.evaluation_id)
              db1.evaluator_comments,
          evaluations :=
            selWhere (fun e => ¬e.evaluation_id = evaluation.evaluation_id) db1.evaluations }
    .ok ({ db2 with
      chat_sessions :=
        selWhere (fun s => ¬s.session_id = session.session_id) db2.chat_sessions },
      "Sesión eliminada correctamente")

/-- Spec-side restatement of the dedup rule, written from the spec words
for comparison with the code: keep only the first occurrence of each
element, in order. Applied to the whitespace-normalized nonempty parts it
is the dedup the spec describes. -/
def firstOccurrences (l : List String) : List String :=
  l.foldl (fun acc p => if p ∈ acc then acc else acc ++ [p]) []

/-- A similarity function that is constantly zero, for concrete runs. -/
def simZero : String → String → ℚ :=
  fun _ _ => 0

/-- A similarity function that is constantly one, for concrete runs. -/
def simOne : String → String → ℚ :=
  fun _ _ => 1

/-- A random forest that outputs no classes, for concrete runs. -/
def rfEmpty : List ℚ → List (String × ℚ) :=
  fun _ => []

/-- Environment with every artifact loaded, zero similarity, an empty
classifier and no language model. -/
def envA : Env :=
  ⟨true, true, true, simZero, rfEmpty, none⟩

/-- Environment identical to envA except that the similarity is
constantly one. -/
def envSim1 : Env :=
  ⟨true, true, true, simOne, rfEmpty, none⟩

/-- Environment whose random forest artifact failed to load. -/
def envOff : Env :=
  ⟨false, true, true, simZero, rfEmpty, none⟩

/-- A database with every table empty. -/
def dbEmpty : DBState :=
  ⟨[], [], [], [], [], [], [], []⟩

/-- A scale question of the R dimension with the given id. -/
def qR (i : ℕ) : Question :=
  ⟨i, some "scale", some "riasec_r"⟩

/-- A scale answer of evaluation 1 with the given id, question and value. -/
def ansScale (i : ℕ) (v : ℚ) : UserAnswer :=
  ⟨i, 1, i, none, some (.jobj [("scale", .jnum v)])⟩

/-- Guided assessment whose single R answer carries the out-of-range scale
value 900. -/
def dbC1 : DBState :=
  ⟨[⟨1, 7, "guided"⟩], [], [⟨1, 7, 1, "guided"⟩], [qR 1], [ansScale 1 900], [], [], []⟩

/-- Guided assessment with five R scale answers of value 5, so the R
dimension sums to 25 as in the spec example. -/
def dbC2 : DBState :=
  ⟨[⟨1, 7, "guided"⟩], [], [⟨1, 7, 1, "guided"⟩],
   [qR 1, qR 2, qR 3, qR 4, qR 5],
   [ansScale 1 5, ansScale 2 5, ansScale 3 5, ansScale 4 5, ansScale 5 5], [], [], []⟩

/-- An open-text question with the given id. -/
def qOpen (i : ℕ) : Question :=
  ⟨i, some "open_text", none⟩

/-- dbC2 plus one free-text answer reading hola, so the aggregated text is
nonempty and the NLP signal fires. -/
def dbC3 : DBState :=
  ⟨[⟨1, 7, "guided"⟩], [], [⟨1, 7, 1, "guided"⟩],
   [qR 1, qR 2, qR 3, qR 4, qR 5, qOpen 6],
   [ansScale 1 5, ansScale 2 5, ansScale 3 5, ansScale 4 5, ansScale 5 5,
    ⟨6, 1, 6, some "hola", none⟩], [], [], []⟩

/-- Open-mode assessment with one free-text answer. -/
def dbOpen : DBState :=
  ⟨[⟨1, 7, "open"⟩], [], [⟨1, 7, 1, "open"⟩], [qOpen 1],
   [⟨1, 1, 1, some "hola", none⟩], [], [], []⟩

/-- Guided assessment with one good R scale answer, used as the base state
for the malformed-answer experiment. -/
def dbC7 : DBState :=
  ⟨[⟨1, 7, "guided"⟩], [], [⟨1, 7, 1, "guided"⟩], [qR 1], [ansScale 1 5], [], [], []⟩

/-- An answer whose scale field is a non-numeric string, so float raises
and the value is skipped. -/
def ansBad : UserAnswer :=
  ⟨9, 1, 1, none, some (.jobj [("scale", .jstr "abc")])⟩

/-- A populated session owned by user 7, with one message, one evaluation,
one answer, one result, one feedback row and one comment row. -/
def dbC8 : DBState :=
  ⟨[⟨1, 7, "guided"⟩], [⟨1, 1, "user", "hola", 0⟩], [⟨1, 7, 1, "guided"⟩], [qR 1],
   [ansScale 1 5], [⟨1, zeroScores, [], []⟩], [⟨1, 1⟩], [⟨1, 1⟩]⟩

/-- The state left after deleting session 1 of dbC8: only the questions
remain. -/
def dbC8After : DBState :=
  ⟨[], [], [], [qR 1], [], [], [], []⟩

/-- Invariant of the by_cat dict of filter_and_fill: every stored item
carries its own key as category and a career authorized for that key. -/
def goodByCat (d : List (String × List RecItem)) : Prop :=
  ∀ p ∈ d, ∀ it ∈ p.2, it.category = p.1 ∧ it.career ∈ allowedCareers p.1

theorem slookup_mem {α : Type} (k : String) (v : α) (l : List (String × α))
    (h : slookup k l = some v) : (k, v) ∈ l := by
  induction l with
  | nil => simp [slookup] at h
  | cons p ps ih =>
    rw [slookup] at h
    by_cases hpk : p.1 = k
    · rw [if_pos hpk] at h
      injection h with h2
      exact List.mem_cons.mpr (Or.inl (by rw [Prod.ext_iff]; exact ⟨hpk.symm, h2.symm⟩))
    · rw [if_neg hpk] at h
      exact List.mem_cons_of_mem _ (ih h)

theorem slookup_map_self {α : Type} (keys : List String) (f : String → α) (k : String) :
    slookup k (keys.map (fun r => (r, f r))) = if k ∈ keys then some (f k) else none := by
  induction keys with
  | nil => simp [slookup]
  | cons a as ih =>
    simp only [List.map_cons, slookup]
    by_cases hak : a = k
    · subst hak
      simp
    · rw [if_neg hak, ih]
      by_cases hmem : k ∈ as
      · rw [if_pos hmem, if_pos (List.mem_cons_of_mem _ hmem)]
      · rw [if_neg hmem, if_neg]
        intro hc
        rcases List.mem_cons.mp hc with h1 | h1
        · exact hak h1.symm
        · exact hmem h1

theorem mem_selWhere {α : Type} (p : α → Prop) [DecidablePred p] (l : List α) (x : α) :
    x ∈ selWhere p l ↔ x ∈ l ∧ p x := by
  induction l with
  | nil => simp [selWhere]
  | cons a as ih =>
    rw [selWhere]
    by_cases ha : p a
    · rw [if_pos ha]
      simp only [List.mem_cons, ih]
      constructor
      · rintro (rfl | ⟨hx, hpx⟩)
        · exact ⟨Or.inl rfl, ha⟩
        · exact ⟨Or.inr hx, hpx⟩
      · rintro ⟨rfl | hx, hpx⟩
        · exact Or.inl rfl
        · exact Or.inr ⟨hx, hpx⟩
    · rw [if_neg ha, ih]
      simp only [List.mem_cons]
      constructor
      · rintro ⟨hx, hpx⟩
        exact ⟨Or.inr hx, hpx⟩
      · rintro ⟨rfl | hx, hpx⟩
        · exact absurd hpx ha
        · exact ⟨hx, hpx⟩

theorem selWhere_append {α : Type} (p : α → Prop) [DecidablePred p] (l1 l2 : List α) :
    selWhere p (l1 ++ l2) = selWhere p l1 ++ selWhere p l2 := by
  induction l1 with
  | nil => simp [selWhere]
  | cons a as ih =>
    rw [List.cons_append, selWhere, selWhere]
    by_cases ha : p a <;> simp [ha, ih]

theorem firstWhere_some {α : Type} (p : α → Prop) [DecidablePred p] (l : List α) (x : α)
    (h : firstWhere p l = some x) : x ∈ l ∧ p x := by
  induction l with
  | nil => simp [firstWhere] at h
  | cons a as ih =>
    rw [firstWhere] at h
    by_cases ha : p a
    · rw [if_pos ha] at h
      injection h with h2
      exact ⟨List.mem_cons.mpr (Or.inl h2.symm), h2 ▸ ha⟩
    · rw [if_neg ha] at h
      obtain ⟨hx, hpx⟩ := ih h
      exact ⟨List.mem_cons_of_mem _ hx, hpx⟩

theorem firstWhere_none {α : Type} (p : α → Prop) [DecidablePred p] (l : List α)
    (h : firstWhere p l = none) : ∀ x ∈ l, ¬p x := by
  induction l with
  | nil => simp
  | cons a as ih =>
    rw [firstWhere] at h
    by_cases ha : p a
    · rw [if_pos ha] at h
      exact absurd h (by simp)
    · rw [if_neg ha] at h
      intro x hx
      rcases List.mem_cons.mp hx with rfl | hx2
      · exact ha
      · exact ih h x hx2

theorem roundHalfEven_intCast (n : ℤ) : roundHalfEven (n : ℚ) = n := by
  simp only [roundHalfEven, Int.floor_intCast, sub_self]
  norm_num

theorem roundHalfEven_eq_of_lt_half (x : ℚ) (n : ℤ) (h1 : (n : ℚ) ≤ x)
    (h2 : x < (n : ℚ) + 1/2) : roundHalfEven x = n := by
  have hfl : ⌊x⌋ = n := by
    rw [Int.floor_eq_iff]
    exact ⟨h1, by linarith⟩
  simp only [roundHalfEven, hfl]
  rw [if_pos (by linarith)]

theorem roundHalfEven_nonneg (x : ℚ) (h : 0 ≤ x) : 0 ≤ roundHalfEven x := by
  have h0 : 0 ≤ ⌊x⌋ := Int.floor_nonneg.mpr h
  simp only [roundHalfEven]
  split_ifs <;> omega

theorem roundHalfEven_le (x : ℚ) (n : ℤ) (h : x ≤ (n : ℚ)) : roundHalfEven x ≤ n := by
  have hfl : ⌊x⌋ ≤ n := by
    have := Int.floor_le_floor (α := ℚ) h
    rwa [Int.floor_intCast] at this
  have hup : ∀ h1 : ¬x - (⌊x⌋ : ℚ) < 1/2, ⌊x⌋ + 1 ≤ n := by
    intro h1
    have hge : (1 : ℚ)/2 ≤ x - (⌊x⌋ : ℚ) := le_of_not_lt h1
    have hlt : (⌊x⌋ : ℚ) < (n : ℚ) := by linarith
    have : ⌊x⌋ < n := by exact_mod_cast hlt
    omega
  simp only [roundHalfEven]
  split_ifs with h1 h2 h3
  · exact hfl
  · exact hup h1
  · exact hfl
  · exact hup h1

theorem pyRound4_exact (q : ℚ) (n : ℤ) (h : q * 10000 = (n : ℚ)) :
    pyRound4 q = (n : ℚ) / 10000 := by
  rw [pyRound4, h, roundHalfEven_intCast]

theorem pyRound4_eq_of_lt_half (q : ℚ) (n : ℤ) (h1 : (n : ℚ) ≤ q * 10000)
    (h2 : q * 10000 < (n : ℚ) + 1/2) : pyRound4 q = (n : ℚ) / 10000 := by
  rw [pyRound4, roundHalfEven_eq_of_lt_half _ n h1 h2]

theorem pyRound4_bounds (q : ℚ) (h0 : 0 ≤ q) (h1 : q ≤ 1) :
    0 ≤ pyRound4 q ∧ pyRound4 q ≤ 1 := by
  rw [pyRound4]
  have hx0 : 0 ≤ q * 10000 := by positivity
  have hx1 : q * 10000 ≤ ((10000 : ℤ) : ℚ) := by push_cast; nlinarith
  have hr0 := roundHalfEven_nonneg _ hx0
  have hr1 := roundHalfEven_le _ _ hx1
  constructor
  · apply div_nonneg _ (by norm_num)
    exact_mod_cast hr0
  · rw [div_le_one (by norm_num)]
    exact_mod_cast hr1

theorem calc_profile_fst (mcq nlp : List (String × ℚ)) (w1 w2 : ℚ) :
    (calculate_final_profile mcq nlp w1 w2).1 =
      riasec_types.map (fun r =>
        (r, w1 * ((slookup r mcq).getD 0 / 30) + w2 * ((slookup r nlp).getD 0 / 1))) := by
  unfold calculate_final_profile
  norm_num

theorem gen_riasec_scores (env : Env) (db : DBState) (eid : ℕ)
    (h1 : env.rf_loaded = true) (h2 : env.vectorizer_loaded = true)
    (h3 : env.centroids_loaded = true) :
    (generate_and_save_results env db eid).2.riasec_scores =
      riasec_types.map (fun r => (r, pyRound4 (
        (mode_weights (resolved_chat_mode db eid)).1 *
          ((slookup r (aggregate_answers_for_evaluation db eid).mcq_scores).getD 0 / 30) +
        (mode_weights (resolved_chat_mode db eid)).2 *
          ((slookup r (get_nlp_scores env
            (aggregate_answers_for_evaluation db eid).answers_text)).getD 0 / 1)))) := by
  unfold generate_and_save_results
  rw [if_neg (by simp [h1, h2, h3])]
  simp only [calc_profile_fst, List.map_map]
  rfl

theorem gen_score_lookup (env : Env) (db : DBState) (eid : ℕ) (r : String)
    (h1 : env.rf_loaded = true) (h2 : env.vectorizer_loaded = true)
    (h3 : env.centroids_loaded = true) (hr : r ∈ riasec_types) :
    slookup r (generate_and_save_results env db eid).2.riasec_scores =
      some (pyRound4 (
        (mode_weights (resolved_chat_mode db eid)).1 *
          ((slookup r (aggregate_answers_for_evaluation db eid).mcq_scores).getD 0 / 30) +
        (mode_weights (resolved_chat_mode db eid)).2 *
          ((slookup r (get_nlp_scores env
            (aggregate_answers_for_evaluation db eid).answers_text)).getD 0 / 1))) := by
  rw [gen_riasec_scores env db eid h1 h2 h3, slookup_map_self, if_pos hr]

theorem nlp_lookup_bounds (env : Env) (text : String) (r : String) (v : ℚ)
    (hs : ∀ t d, 0 ≤ env.sim t d ∧ env.sim t d ≤ 1)
    (h : slookup r (get_nlp_scores env text) = some v) : 0 ≤ v ∧ v ≤ 1 := by
  have hmem := slookup_mem _ _ _ h
  unfold get_nlp_scores at hmem
  split at hmem
  · obtain ⟨r0, -, heq⟩ := List.mem_map.mp hmem
    injection heq with h1 h2
    rw [← h2]
    norm_num
  · obtain ⟨r0, -, heq⟩ := List.mem_map.mp hmem
    injection heq with h1 h2
    rw [← h2]
    exact hs text r0

theorem mode_weights_cases (m : Option String) :
    mode_weights m = (7/10, 3/10) ∨ mode_weights m = (0, 1) := by
  unfold mode_weights
  split
  · exact Or.inr rfl
  · exact Or.inl rfl

theorem mode_weights_guided : mode_weights (some "guided") = (7/10, 3/10) := by
  unfold mode_weights
  rw [if_neg (by decide)]

theorem mode_weights_open : mode_weights (some "open") = (0, 1) := by
  unfold mode_weights
  rw [if_pos rfl]

theorem scaleVal_scaleopt (ida eva qa : ℕ) (t : Option String) (v : ℚ) (q : Question) :
    scaleVal ⟨ida, eva, qa, t, some (.jobj [("scale", .jnum v)])⟩ q = some v := by
  simp [scaleVal, slookup, pyFloat]

theorem catKey_riasec_r : catKey (some "riasec_r") = some "R" := by
  decide

theorem catKey_none : catKey none = none := by
  simp [catKey]

theorem scaleVal_hola (ida eva qa i : ℕ) :
    scaleVal ⟨ida, eva, qa, some "hola", none⟩ (qOpen i) = none := by
  simp [scaleVal, qOpen, truthy, parseDecimal, pyStrip, pyReplaceCommaDot]

theorem aggC1_scores :
    (aggregate_answers_for_evaluation dbC1 1).mcq_scores =
      [("R", 900), ("I", 0), ("A", 0), ("S", 0), ("E", 0), ("C", 0)] := by
  simp [aggregate_answers_for_evaluation, dbC1, firstWhere, rowsFor, selWhere, aggStep,
    zeroScores, riasec_types, addScore, slookup, scaleVal_scaleopt, catKey_riasec_r,
    List.filterMap_cons, List.filterMap_nil, ansScale, qR]

theorem aggC1_text : (aggregate_answers_for_evaluation dbC1 1).answers_text = "" := by
  decide

theorem aggC2_scores :
    (aggregate_answers_for_evaluation dbC2 1).mcq_scores =
      [("R", 25), ("I", 0), ("A", 0), ("S", 0), ("E", 0), ("C", 0)] := by
  simp [aggregate_answers_for_evaluation, dbC2, firstWhere, rowsFor, selWhere, aggStep,
    zeroScores, riasec_types, addScore, slookup, scaleVal_scaleopt, catKey_riasec_r,
    List.filterMap_cons, List.filterMap_nil, ansScale, qR]
  norm_num

theorem aggC2_text : (aggregate_answers_for_evaluation dbC2 1).answers_text = "" := by
  decide

theorem aggC3_scores :
    (aggregate_answers_for_evaluation dbC3 1).mcq_scores =
      [("R", 25), ("I", 0), ("A", 0), ("S", 0), ("E", 0), ("C", 0)] := by
  simp [aggregate_answers_for_evaluation, dbC3, firstWhere, rowsFor, selWhere, aggStep,
    zeroScores, riasec_types, addScore, slookup, scaleVal_scaleopt, catKey_riasec_r,
    scaleVal_hola, catKey_none, List.filterMap_cons, List.filterMap_nil, ansScale, qR, qOpen]
  norm_num

theorem aggC3_text : (aggregate_answers_for_evaluation dbC3 1).answers_text = "hola" := by
  decide

theorem aggOpen_text : (aggregate_answers_for_evaluation dbOpen 1).answers_text = "hola" := by
  decide

/-- C1: for every result stored by the compute-and-store pipeline, the
riasec_scores profile carries exactly the six canonical keys in canonical
order, and every value lies in 0..1 whenever each dimension scale sum lies
in 0..30 and the black-box similarity lies in 0..1; the code never clamps,
so the range invariant needs those hypotheses. -/
theorem C1_theorem (env : Env) (db : DBState) (eid : ℕ)
    (hm : ∀ p ∈ (aggregate_answers_for_evaluation db eid).mcq_scores, 0 ≤ p.2 ∧ p.2 ≤ 30)
    (hs : ∀ t d, 0 ≤ env.sim t d ∧ env.sim t d ≤ 1) :
    ((generate_and_save_results env db eid).2.riasec_scores.map Prod.fst = riasec_types) ∧
    (∀ p ∈ (generate_and_save_results env db eid).2.riasec_scores, 0 ≤ p.2 ∧ p.2 ≤ 1) := by
  by_cases hload : env.rf_loaded = true ∧ env.vectorizer_loaded = true ∧
      env.centroids_loaded = true
  · obtain ⟨h1, h2, h3⟩ := hload
    rw [gen_riasec_scores env db eid h1 h2 h3]
    constructor
    · rw [List.map_map]
      rfl
    · intro p hp
      obtain ⟨r, hr, heq⟩ := List.mem_map.mp hp
      rw [← heq]
      simp only []
      have hmb : 0 ≤ (slookup r (aggregate_answers_for_evaluation db eid).mcq_scores).getD 0 ∧
          (slookup r (aggregate_answers_for_evaluation db eid).mcq_scores).getD 0 ≤ 30 := by
        cases hsl : slookup r (aggregate_answers_for_evaluation db eid).mcq_scores with
        | none => norm_num
        | some v => simpa using hm _ (slookup_mem _ _ _ hsl)
      have hnb : 0 ≤ (slookup r (get_nlp_scores env
            (aggregate_answers_for_evaluation db eid).answers_text)).getD 0 ∧
          (slookup r (get_nlp_scores env
            (aggregate_answers_for_evaluation db eid).answers_text)).getD 0 ≤ 1 := by
        cases hsl : slookup r (get_nlp_scores env
            (aggregate_answers_for_evaluation db eid).answers_text) with
        | none => norm_num
        | some v => simpa using nlp_lookup_bounds env _ r v hs hsl
      set m := (slookup r (aggregate_answers_for_evaluation db eid).mcq_scores).getD 0 with hmdef
      set nv := (slookup r (get_nlp_scores env
        (aggregate_answers_for_evaluation db eid).answers_text)).getD 0 with hnvdef
      have hd1 : (0 : ℚ) ≤ m / 30 := div_nonneg hmb.1 (by norm_num)
      have hd2 : m / 30 ≤ 1 := by
        rw [div_le_one (by norm_num)]
        exact hmb.2
      rcases mode_weights_cases (resolved_chat_mode db eid) with hw | hw <;> rw [hw]
      · apply pyRound4_bounds
        · have t1 : (0 : ℚ) ≤ 7/10 * (m / 30) := by nlinarith
          have t2 : (0 : ℚ) ≤ 3/10 * (nv / 1) := by
            rw [div_one]
            nlinarith [hnb.1]
          simp only []
          linarith
        · have t1 : (7 : ℚ)/10 * (m / 30) ≤ 7/10 := by nlinarith
          have t2 : (3 : ℚ)/10 * (nv / 1) ≤ 3/10 := by
            rw [div_one]
            nlinarith [hnb.2]
          simp only []
          linarith
      · have heval : ((0, 1) : ℚ × ℚ).1 * (m / 30) + ((0, 1) : ℚ × ℚ).2 * (nv / 1) = nv := by
          norm_num
        rw [heval]
        exact pyRound4_bounds nv hnb.1 hnb.2
  · have hcond : env.rf_loaded = false ∨ env.vectorizer_loaded = false ∨
        env.centroids_loaded = false := by
      cases hb1 : env.rf_loaded <;> cases hb2 : env.vectorizer_loaded <;>
        cases hb3 : env.centroids_loaded <;> simp_all
    unfold generate_and_save_results
    rw [if_pos hcond]
    simp only [degradedResult]
    constructor
    · rw [List.map_map]
      rfl
    · intro p hp
      obtain ⟨r, hr, heq⟩ := List.mem_map.mp hp
      rw [← heq]
      norm_num

/-- Witness for C1 at a concrete guided assessment with scale sums in
range. -/
theorem C1_witness :
    ((generate_and_save_results envA dbC2 1).2.riasec_scores.map Prod.fst = riasec_types) ∧
    (∀ p ∈ (generate_and_save_results envA dbC2 1).2.riasec_scores, 0 ≤ p.2 ∧ p.2 ≤ 1) :=
  C1_theorem envA dbC2 1
    (by
      intro p hp
      rw [aggC2_scores] at hp
      fin_cases hp <;> norm_num)
    (by
      intro t d
      constructor <;> simp [envA, simZero])

/-- Counterexample for C1 as stated: with the malformed scale value 900 the
stored R score is 21, far outside 0..1, because the code never clamps. -/
theorem C1_counterexample :
    slookup "R" (generate_and_save_results envA dbC1 1).2.riasec_scores = some 21 ∧
    ¬((21 : ℚ) ≤ 1) := by
  constructor
  · rw [gen_score_lookup envA dbC1 1 "R" rfl rfl rfl (by decide)]
    have hmode : resolved_chat_mode dbC1 1 = some "guided" := by decide
    rw [hmode]
    have hexpr : (mode_weights (some "guided")).1 *
        ((slookup "R" (aggregate_answers_for_evaluation dbC1 1).mcq_scores).getD 0 / 30) +
        (mode_weights (some "guided")).2 *
        ((slookup "R" (get_nlp_scores envA
          (aggregate_answers_for_evaluation dbC1 1).answers_text)).getD 0 / 1) = 21 := by
      rw [aggC1_scores, aggC1_text, mode_weights_guided]
      norm_num [get_nlp_scores, slookup, riasec_types]
    rw [hexpr]
    have hround : pyRound4 21 = 21 := by
      have h := pyRound4_exact 21 210000 (by norm_num)
      rw [h]
      norm_num
    rw [hround]
  · norm_num

/-- C2 (amended): in guided mode the stored profile value of every
dimension is the rounded 70/30 blend of the scale-sum signal, scaled by its
theoretical maximum of 30, with the NLP signal; it is not the pure
sum-over-maximum rescaling the claim states, because guided mode still
weighs the NLP score at 0.3. -/
theorem C2_theorem (env : Env) (db : DBState) (eid : ℕ) (r : String)
    (h1 : env.rf_loaded = true) (h2 : env.vectorizer_loaded = true)
    (h3 : env.centroids_loaded = true)
    (hmode : ¬resolved_chat_mode db eid = some "open") (hr : r ∈ riasec_types) :
    slookup r (generate_and_save_results env db eid).2.riasec_scores =
      some (pyRound4 (7/10 *
        ((slookup r (aggregate_answers_for_evaluation db eid).mcq_scores).getD 0 / 30) +
        3/10 * ((slookup r (get_nlp_scores env
          (aggregate_answers_for_evaluation db eid).answers_text)).getD 0 / 1))) := by
  rw [gen_score_lookup env db eid r h1 h2 h3 hr]
  unfold mode_weights
  rw [if_neg hmode]

/-- Witness for C2 (amended) at the concrete guided assessment dbC2. -/
theorem C2_witness :
    slookup "R" (generate_and_save_results envA dbC2 1).2.riasec_scores =
      some (pyRound4 (7/10 *
        ((slookup "R" (aggregate_answers_for_evaluation dbC2 1).mcq_scores).getD 0 / 30) +
        3/10 * ((slookup "R" (get_nlp_scores envA
          (aggregate_answers_for_evaluation dbC2 1).answers_text)).getD 0 / 1))) :=
  C2_theorem envA dbC2 1 "R" rfl rfl rfl (by decide) (by decide)

/-- Counterexample for C2 as stated: with guided answers summing to 25 on R
and no free text, the stored R value is 0.5833, not the
sum-over-maximum value 0.8333 computed by the formula of the claim. -/
theorem C2_counterexample :
    slookup "R" (generate_and_save_results envA dbC2 1).2.riasec_scores =
      some (5833/10000) ∧
    ¬((5833 : ℚ)/10000 = ((25/30*4+1)-1)/4) := by
  constructor
  · rw [gen_score_lookup envA dbC2 1 "R" rfl rfl rfl (by decide)]
    have hmode : resolved_chat_mode dbC2 1 = some "guided" := by decide
    rw [hmode, mode_weights_guided]
    have hexpr : ((7:ℚ)/10, (3:ℚ)/10).1 *
        ((slookup "R" (aggregate_answers_for_evaluation dbC2 1).mcq_scores).getD 0 / 30) +
        ((7:ℚ)/10, (3:ℚ)/10).2 * ((slookup "R" (get_nlp_scores envA
          (aggregate_answers_for_evaluation dbC2 1).answers_text)).getD 0 / 1) = 7/12 := by
      rw [aggC2_scores, aggC2_text]
      simp [get_nlp_scores, slookup, riasec_types]
      norm_num
    rw [hexpr]
    have hround : pyRound4 (7/12) = (5833 : ℚ)/10000 := by
      have h := pyRound4_eq_of_lt_half (7/12) 5833 (by norm_num) (by norm_num)
      rw [h]
      norm_num
    rw [hround]
  · norm_num

/-- C3 (amended): open mode is exclusive, so the stored profile is the
rounded NLP score alone and the scale sums contribute nothing; guided mode
however blends the two signals 70/30, so mode does not select a single
signal exclusively there. -/
theorem C3_theorem (env : Env) (db : DBState) (eid : ℕ) (r : String)
    (h1 : env.rf_loaded = true) (h2 : env.vectorizer_loaded = true)
    (h3 : env.centroids_loaded = true)
    (hmode : resolved_chat_mode db eid = some "open") (hr : r ∈ riasec_types) :
    slookup r (generate_and_save_results env db eid).2.riasec_scores =
      some (pyRound4 ((slookup r (get_nlp_scores env
        (aggregate_answers_for_evaluation db eid).answers_text)).getD 0)) := by
  rw [gen_score_lookup env db eid r h1 h2 h3 hr, hmode, mode_weights_open]
  have heval : ∀ x y : ℚ, ((0 : ℚ), (1 : ℚ)).1 * (x / 30) + ((0 : ℚ), (1 : ℚ)).2 * (y / 1) = y := by
    intro x y
    norm_num
  rw [heval]

/-- Witness for C3 (amended) at the concrete open assessment dbOpen. -/
theorem C3_witness :
    slookup "R" (generate_and_save_results envSim1 dbOpen 1).2.riasec_scores =
      some (pyRound4 ((slookup "R" (get_nlp_scores envSim1
        (aggregate_answers_for_evaluation dbOpen 1).answers_text)).getD 0)) :=
  C3_theorem envSim1 dbOpen 1 "R" rfl rfl rfl (by decide) (by decide)

/-- Counterexample for C3 as stated: in a guided assessment the stored R
value changes from 0.5833 to 0.8833 when only the opaque text similarity
changes from 0 to 1, so the text-derived NLP signal contributes to the
guided profile instead of contributing nothing. -/
theorem C3_counterexample :
    slookup "R" (generate_and_save_results envSim1 dbC3 1).2.riasec_scores =
      some (8833/10000) ∧
    slookup "R" (generate_and_save_results envA dbC3 1).2.riasec_scores =
      some (5833/10000) ∧
    ¬((8833 : ℚ)/10000 = (5833 : ℚ)/10000) := by
  refine ⟨?_, ?_, by norm_num⟩
  · rw [gen_score_lookup envSim1 dbC3 1 "R" rfl rfl rfl (by decide)]
    have hmode : resolved_chat_mode dbC3 1 = some "guided" := by decide
    rw [hmode, mode_weights_guided]
    have hexpr : ((7:ℚ)/10, (3:ℚ)/10).1 *
        ((slookup "R" (aggregate_answers_for_evaluation dbC3 1).mcq_scores).getD 0 / 30) +
        ((7:ℚ)/10, (3:ℚ)/10).2 * ((slookup "R" (get_nlp_scores envSim1
          (aggregate_answers_for_evaluation dbC3 1).answers_text)).getD 0 / 1) = 53/60 := by
      rw [aggC3_scores, aggC3_text]
      simp [get_nlp_scores, slookup, riasec_types, envSim1, simOne]
      norm_num
    rw [hexpr]
    have hround : pyRound4 (53/60) = (8833 : ℚ)/10000 := by
      have h := pyRound4_eq_of_lt_half (53/60) 8833 (by norm_num) (by norm_num)
      rw [h]
      norm_num
    rw [hround]
  · rw [gen_score_lookup envA dbC3 1 "R" rfl rfl rfl (by decide)]
    have hmode : resolved_chat_mode dbC3 1 = some "guided" := by decide
    rw [hmode, mode_weights_guided]
    have hexpr : ((7:ℚ)/10, (3:ℚ)/10).1 *
        ((slookup "R" (aggregate_answers_for_evaluation dbC3 1).mcq_scores).getD 0 / 30) +
        ((7:ℚ)/10, (3:ℚ)/10).2 * ((slookup "R" (get_nlp_scores envA
          (aggregate_answers_for_evaluation dbC3 1).answers_text)).getD 0 / 1) = 7/12 := by
      rw [aggC3_scores, aggC3_text]
      simp [get_nlp_scores, slookup, riasec_types, envA, simZero]
      norm_num
    rw [hexpr]
    have hround : pyRound4 (7/12) = (5833 : ℚ)/10000 := by
      have h := pyRound4_eq_of_lt_half (7/12) 5833 (by norm_num) (by norm_num)
      rw [h]
      norm_num
    rw [hround]

/-- C4 (amended): calling compute-and-store again for the same assessment
appends one more result row keyed to that evaluation instead of
overwriting: after n calls n rows exist. -/
theorem C4_theorem (env : Env) (db : DBState) (eid : ℕ) :
    (generate_and_save_results env db eid).1.evaluation_results =
      db.evaluation_results ++ [(generate_and_save_results env db eid).2] ∧
    (generate_and_save_results env db eid).2.evaluation_id = eid := by
  unfold generate_and_save_results
  split
  · exact ⟨rfl, rfl⟩
  · exact ⟨rfl, rfl⟩

/-- Counterexample for C4 as stated: two calls for evaluation 1 leave two
result rows for that evaluation, not at most one. -/
theorem C4_counterexample :
    (selWhere (fun r0 => r0.evaluation_id = 1)
      (generate_and_save_results envOff
        (generate_and_save_results envOff dbEmpty 1).1 1).1.evaluation_results).length = 2 ∧
    ¬((2 : ℕ) ≤ 1) := by
  constructor
  · simp [generate_and_save_results, envOff, dbEmpty, degradedResult, selWhere]
  · norm_num

/-- C5: when an artifact is missing, the pipeline still stores and returns
a degraded result whose profile is all-zero over the six canonical keys and
whose career list is empty, rather than failing. -/
theorem C5_theorem (env : Env) (db : DBState) (eid : ℕ)
    (h : env.rf_loaded = false ∨ env.vectorizer_loaded = false ∨
      env.centroids_loaded = false) :
    (generate_and_save_results env db eid).2.riasec_scores =
      riasec_types.map (fun k => (k, 0)) ∧
    (generate_and_save_results env db eid).2.top_careers = [] ∧
    (generate_and_save_results env db eid).1.evaluation_results =
      db.evaluation_results ++ [(generate_and_save_results env db eid).2] := by
  unfold generate_and_save_results
  rw [if_pos h]
  exact ⟨rfl, rfl, rfl⟩

/-- Witness for C5 with the random-forest artifact missing. -/
theorem C5_witness :
    (generate_and_save_results envOff dbEmpty 1).2.riasec_scores =
      riasec_types.map (fun k => (k, 0)) ∧
    (generate_and_save_results envOff dbEmpty 1).2.top_careers = [] ∧
    (generate_and_save_results envOff dbEmpty 1).1.evaluation_results =
      dbEmpty.evaluation_results ++ [(generate_and_save_results envOff dbEmpty 1).2] :=
  C5_theorem envOff dbEmpty 1 (Or.inl rfl)

/-- C10: aggregation of an unknown evaluation returns empty text and a
zero score for each of the six RIASEC keys. -/
theorem C10_theorem (db : DBState) (eid : ℕ)
    (h : firstWhere (fun e => e.evaluation_id = eid) db.evaluations = none) :
    aggregate_answers_for_evaluation db eid =
      ⟨"", riasec_types.map (fun k => (k, 0))⟩ := by
  unfold aggregate_answers_for_evaluation
  rw [h]

/-- Witness for C10 on the empty database. -/
theorem C10_witness :
    aggregate_answers_for_evaluation dbEmpty 1 =
      ⟨"", riasec_types.map (fun k => (k, 0))⟩ :=
  C10_theorem dbEmpty 1 rfl

theorem dedupNormalized_eq_spec (parts : List String) :
    dedupNormalized parts = firstOccurrences (selWhere (fun p => p ≠ "")
      ((selWhere (fun t => t ≠ "") parts).map normalizeText)) := by
  unfold dedupNormalized firstOccurrences
  suffices h : ∀ (ts : List String) (acc : List String),
      ts.foldl (fun acc t =>
        let nt := normalizeText t
        if nt ≠ "" ∧ nt ∉ acc then acc ++ [nt] else acc) acc =
      (selWhere (fun p => p ≠ "") (ts.map normalizeText)).foldl
        (fun acc p => if p ∈ acc then acc else acc ++ [p]) acc by
    exact h (selWhere (fun t => t ≠ "") parts) []
  intro ts
  induction ts with
  | nil =>
    intro acc
    rfl
  | cons t ts ih =>
    intro acc
    rw [List.foldl_cons, List.map_cons, selWhere]
    by_cases h1 : normalizeText t ≠ ""
    · rw [if_pos h1, List.foldl_cons]
      by_cases h2 : normalizeText t ∈ acc
      · have hg : ¬(normalizeText t ≠ "" ∧ normalizeText t ∉ acc) := fun hc => hc.2 h2
        simp only []
        rw [if_neg hg, if_pos h2]
        exact ih acc
      · simp only []
        rw [if_pos ⟨h1, h2⟩, if_neg h2]
        exact ih (acc ++ [normalizeText t])
    · push_neg at h1
      simp only []
      rw [if_neg (fun hc => hc.1 h1), if_neg (fun hc => hc h1)]
      exact ih acc

theorem keepFirst_foldl_nodup (l : List String) :
    ∀ acc : List String, acc.Nodup →
      (l.foldl (fun acc p => if p ∈ acc then acc else acc ++ [p]) acc).Nodup := by
  induction l with
  | nil =>
    intro acc h
    exact h
  | cons p ps ih =>
    intro acc h
    rw [List.foldl_cons]
    by_cases hp : p ∈ acc
    · rw [if_pos hp]
      exact ih acc h
    · rw [if_neg hp]
      refine ih _ ?_
      rw [List.nodup_append]
      refine ⟨h, List.nodup_singleton p, ?_⟩
      intro x hx hxp
      rw [List.mem_singleton] at hxp
      exact hp (hxp ▸ hx)

theorem dedupNormalized_nodup (parts : List String) : (dedupNormalized parts).Nodup := by
  rw [dedupNormalized_eq_spec]
  exact keepFirst_foldl_nodup _ [] List.nodup_nil

/-- C6: aggregation is a pure function of the database state, so two calls
agree exactly; and the dedup of the collected free-text parts drops falsy
parts, whitespace-normalizes each part, and keeps only the first occurrence
of each nonempty normalized part in order, yielding a duplicate-free
list. -/
theorem C6_theorem (db : DBState) (eid : ℕ) (parts : List String) :
    aggregate_answers_for_evaluation db eid = aggregate_answers_for_evaluation db eid ∧
    dedupNormalized parts = firstOccurrences (selWhere (fun p => p ≠ "")
      ((selWhere (fun t => t ≠ "") parts).map normalizeText)) ∧
    (dedupNormalized parts).Nodup :=
  ⟨rfl, dedupNormalized_eq_spec parts, dedupNormalized_nodup parts⟩

theorem aggStep_scores_bad (acc : List String × List (String × ℚ))
    (row : UserAnswer × Question)
    (hbad : scaleVal row.1 row.2 = none ∨ catKey row.2.category = none) :
    (aggStep acc row).2 = acc.2 := by
  unfold aggStep
  rcases hbad with h | h
  · rw [h]
  · rw [h]
    cases scaleVal row.1 row.2 <;> rfl

theorem rowsFor_append_bad (db : DBState) (eid : ℕ) (a : UserAnswer) (q : Question)
    (hq : firstWhere (fun qq => qq.question_id = a.question_id) db.questions = some q)
    (ha : a.evaluation_id = eid) :
    rowsFor { db with user_answers := db.user_answers ++ [a] } eid =
      rowsFor db eid ++ [(a, q)] := by
  unfold rowsFor
  show (selWhere (fun a0 => a0.evaluation_id = eid) (db.user_answers ++ [a])).filterMap _ = _
  rw [selWhere_append, List.filterMap_append]
  congr 1
  rw [selWhere, if_pos ha, selWhere, List.filterMap_cons, List.filterMap_nil, hq]
  rfl

/-- C7: an answer row whose numeric value cannot be coerced, or whose
question category does not resolve to a RIASEC letter, contributes nothing
to the dimension sums: appending such an answer leaves the aggregated
sums unchanged, and the aggregation is total, never raising. -/
theorem C7_theorem (db : DBState) (eid : ℕ) (a : UserAnswer) (q : Question)
    (hq : firstWhere (fun qq => qq.question_id = a.question_id) db.questions = some q)
    (ha : a.evaluation_id = eid)
    (hbad : scaleVal a q = none ∨ catKey q.category = none) :
    (aggregate_answers_for_evaluation
      { db with user_answers := db.user_answers ++ [a] } eid).mcq_scores =
    (aggregate_answers_for_evaluation db eid).mcq_scores := by
  unfold aggregate_answers_for_evaluation
  dsimp only []
  cases hev : firstWhere (fun e => e.evaluation_id = eid) db.evaluations with
  | none => rfl
  | some ev =>
    dsimp only []
    rw [rowsFor_append_bad db eid a q hq ha, List.foldl_append, List.foldl_cons,
      List.foldl_nil]
    exact aggStep_scores_bad _ (a, q) hbad

/-- Witness for C7: appending an answer whose scale field holds the
non-numeric string abc leaves the sums of dbC7 unchanged. -/
theorem C7_witness :
    (aggregate_answers_for_evaluation
      { dbC7 with user_answers := dbC7.user_answers ++ [ansBad] } 1).mcq_scores =
    (aggregate_answers_for_evaluation dbC7 1).mcq_scores :=
  C7_theorem dbC7 1 ansBad (qR 1) (by decide) rfl (Or.inl (by decide))

/-- C8: when deleting a session succeeds and the session has at most one
evaluation, no result row for that evaluation survives, and the evaluation,
its answers and the session messages are removed as well. -/
theorem C8_theorem (db : DBState) (sid uid : ℕ) (out : DBState × String)
    (huniq : ∀ e1 ∈ db.evaluations, ∀ e2 ∈ db.evaluations,
      e1.session_id = sid → e2.session_id = sid → e1 = e2)
    (hok : delete_chat_session db sid uid = .ok out) :
    (∀ e ∈ db.evaluations, e.session_id = sid →
      (∀ r0 ∈ out.1.evaluation_results, ¬r0.evaluation_id = e.evaluation_id) ∧
      (∀ a ∈ out.1.user_answers, ¬a.evaluation_id = e.evaluation_id) ∧
      (∀ e2 ∈ out.1.evaluations, ¬e2.evaluation_id = e.evaluation_id)) ∧
    (∀ m ∈ out.1.chat_messages, ¬m.session_id = sid) := by
  unfold delete_chat_session at hok
  cases hses : firstWhere (fun s => s.session_id = sid ∧ s.user_id = uid)
      db.chat_sessions with
  | none =>
    rw [hses] at hok
    exact absurd hok (by simp)
  | some session =>
    rw [hses] at hok
    dsimp only [] at hok
    cases hev : firstWhere (fun e => e.session_id = sid) db.evaluations with
    | none =>
      rw [hev] at hok
      injection hok with hout
      subst hout
      constructor
      · intro e he hsid
        exact absurd hsid (firstWhere_none _ _ hev e he)
      · intro m hm
        exact ((mem_selWhere _ _ _).mp hm).2
    | some ev =>
      rw [hev] at hok
      injection hok with hout
      subst hout
      have hfw := firstWhere_some _ _ _ hev
      constructor
      · intro e he hsid
        have heev : e = ev := huniq e he ev hfw.1 hsid hfw.2
        subst heev
        refine ⟨?_, ?_, ?_⟩
        · intro r0 hr0
          exact ((mem_selWhere _ _ _).mp hr0).2
        · intro a ha2
          exact ((mem_selWhere _ _ _).mp ha2).2
        · intro e2 he2
          exact ((mem_selWhere _ _ _).mp he2).2
      · intro m hm
        exact ((mem_selWhere _ _ _).mp hm).2

/-- Witness for C8 on a populated session of user 7. -/
theorem C8_witness :
    (∀ e ∈ dbC8.evaluations, e.session_id = 1 →
      (∀ r0 ∈ (dbC8After, "Sesión eliminada correctamente").1.evaluation_results,
        ¬r0.evaluation_id = e.evaluation_id) ∧
      (∀ a ∈ (dbC8After, "Sesión eliminada correctamente").1.user_answers,
        ¬a.evaluation_id = e.evaluation_id) ∧
      (∀ e2 ∈ (dbC8After, "Sesión eliminada correctamente").1.evaluations,
        ¬e2.evaluation_id = e.evaluation_id)) ∧
    (∀ m ∈ (dbC8After, "Sesión eliminada correctamente").1.chat_messages,
      ¬m.session_id = 1) :=
  C8_theorem dbC8 1 7 (dbC8After, "Sesión eliminada correctamente") (by decide) (by rfl)

theorem selWhere_nil_of {α : Type} (p : α → Prop) [DecidablePred p] (l : List α)
    (h : ∀ x ∈ l, ¬p x) : selWhere p l = [] := by
  induction l with
  | nil => rfl
  | cons a as ih =>
    rw [selWhere, if_neg (h a (List.mem_cons_self a as))]
    exact ih fun x hx => h x (List.mem_cons_of_mem _ hx)

theorem selWhere_length_le {α : Type} (p : α → Prop) [DecidablePred p] (l : List α) :
    (selWhere p l).length ≤ l.length := by
  induction l with
  | nil => simp [selWhere]
  | cons a as ih =>
    rw [selWhere]
    by_cases ha : p a
    · rw [if_pos ha]
      simpa using ih
    · rw [if_neg ha]
      exact le_trans ih (by simp)

theorem goodByCat_updAt (d : List (String × List RecItem)) (k : String) (it : RecItem)
    (hd : goodByCat d) (hcat : it.category = k) (hcar : it.career ∈ allowedCareers k) :
    goodByCat (updAt d k it) := by
  intro p hp it2 hit2
  obtain ⟨p0, hp0, heq⟩ := List.mem_map.mp hp
  by_cases hk : p0.1 = k
  · rw [if_pos hk] at heq
    subst heq
    rcases List.mem_append.mp hit2 with h | h
    · exact hd p0 hp0 it2 h
    · rw [List.mem_singleton] at h
      subst h
      rw [hk]
      exact ⟨hcat, hcar⟩
  · rw [if_neg hk] at heq
    subst heq
    exact hd p0 hp0 it2 hit2

theorem goodByCat_init (cats : List String) :
    goodByCat ((dedupKeys cats).map (fun c => (c, ([] : List RecItem)))) := by
  intro p hp it hit
  obtain ⟨c, hc, heq⟩ := List.mem_map.mp hp
  subst heq
  exact absurd hit (List.not_mem_nil it)

theorem goodByCat_filterFold (ordered : List String) (proposed : List LLMItem) :
    ∀ d, goodByCat d → goodByCat (proposed.foldl (filterStep ordered) d) := by
  induction proposed with
  | nil =>
    intro d hd
    exact hd
  | cons item rest ih =>
    intro d hd
    rw [List.foldl_cons]
    apply ih
    unfold filterStep
    cases item.category with
    | none => exact hd
    | some cat =>
      cases item.career with
      | none => exact hd
      | some name =>
        dsimp only []
        split_ifs with h1 h2
        · exact goodByCat_updAt d cat _ hd rfl h1.2
        · exact hd
        · exact hd

theorem goodByCat_fillNames (cat : String) (already : List String) :
    ∀ (names : List String) (d : List (String × List RecItem)), goodByCat d →
      (∀ n ∈ names, n ∈ allowedCareers cat) →
      goodByCat (fillNames cat already d names) := by
  intro names
  induction names with
  | nil =>
    intro d hd _
    exact hd
  | cons name rest ih =>
    intro d hd hn
    unfold fillNames
    split_ifs with h1 h2
    · exact hd
    · exact ih d hd fun n hn0 => hn n (List.mem_cons_of_mem _ hn0)
    · exact ih _ (goodByCat_updAt d cat _ hd rfl (hn name (List.mem_cons_self _ _)))
        fun n hn0 => hn n (List.mem_cons_of_mem _ hn0)

theorem goodByCat_fillAll (ordered : List String) :
    ∀ d, goodByCat d → goodByCat (fillAll ordered d) := by
  unfold fillAll
  induction ordered with
  | nil =>
    intro d hd
    exact hd
  | cons cat rest ih =>
    intro d hd
    rw [List.foldl_cons]
    exact ih _ (goodByCat_fillNames cat _ (allowedCareers cat) d hd fun n hn => hn)

theorem foldl_append_eq_bind {α β : Type} (f : α → List β) (l : List α) :
    ∀ init : List β, l.foldl (fun acc c => acc ++ f c) init = init ++ l.flatMap f := by
  induction l with
  | nil =>
    intro init
    simp
  | cons c cs ih =>
    intro init
    rw [List.foldl_cons, ih, List.flatMap_cons, List.append_assoc]

theorem flattenByCat_eq_bind (ordered : List String) (d : List (String × List RecItem)) :
    flattenByCat ordered d = ordered.flatMap (fun cat => ((slookup cat d).getD []).take 3) := by
  unfold flattenByCat
  rw [foldl_append_eq_bind]
  rfl

theorem bind_item_facts (ordered : List String) (g : String → List RecItem)
    (hcat : ∀ c, ∀ it ∈ g c, it.category = c ∧ it.career ∈ allowedCareers c)
    (it : RecItem) (hit : it ∈ ordered.flatMap g) :
    it.career ∈ allowedCareers it.category ∧ it.category ∈ ordered := by
  obtain ⟨c, hc, hg⟩ := List.mem_flatMap.mp hit
  obtain ⟨h1, h2⟩ := hcat c it hg
  rw [h1]
  exact ⟨h2, hc⟩

theorem bind_count_le (g : String → List RecItem)
    (hcat : ∀ c, ∀ it ∈ g c, it.category = c)
    (hlen : ∀ c, (g c).length ≤ 3) :
    ∀ ordered : List String, ordered.Nodup → ∀ c0 : String,
      (selWhere (fun x => x.category = c0) (ordered.flatMap g)).length ≤ 3 := by
  intro ordered
  induction ordered with
  | nil =>
    intro _ c0
    simp [selWhere]
  | cons c cs ih =>
    intro hnd c0
    have hnd2 := List.nodup_cons.mp hnd
    rw [List.flatMap_cons, selWhere_append, List.length_append]
    by_cases hcc : c = c0
    · subst hcc
      have hrest : selWhere (fun x => x.category = c) (cs.flatMap g) = [] := by
        apply selWhere_nil_of
        intro x hx hxc
        obtain ⟨c1, hc1, hg1⟩ := List.mem_flatMap.mp hx
        rw [hcat c1 x hg1] at hxc
        exact hnd2.1 (hxc ▸ hc1)
      rw [hrest]
      simpa using le_trans (selWhere_length_le _ (g c)) (hlen c)
    · have hhead : selWhere (fun x => x.category = c0) (g c) = [] := by
        apply selWhere_nil_of
        intro x hx hxc
        rw [hcat c x hx] at hxc
        exact hcc hxc
      rw [hhead]
      simpa using ih hnd2.2 c0

theorem orderedCategories_sub (top3 : List CatScore) (c : String)
    (hc : c ∈ orderedCategories top3) : c ∈ top3.map (fun i => i.category) := by
  unfold orderedCategories at hc
  obtain ⟨i, hi, heq⟩ := List.mem_map.mp hc
  exact heq ▸ List.mem_map_of_mem _ ((mem_selWhere _ _ _).mp hi).1

/-- C9: when the supplied top categories are pairwise distinct, every
returned recommendation names a career authorized for its category, that
category is among the supplied ones, and at most 3 careers are returned
per category, on both the filtered language-model path and the
deterministic fallback path. -/
theorem C9_theorem (llm : Option (List LLMItem)) (profile : List (String × ℚ))
    (top3 : List CatScore) (txt : String)
    (hnd : (orderedCategories top3).Nodup) :
    (∀ it ∈ generate_specific_career_recommendations llm profile top3 txt,
      it.career ∈ allowedCareers it.category ∧
      it.category ∈ top3.map (fun i => i.category)) ∧
    (∀ c0 : String, (selWhere (fun x => x.category = c0)
      (generate_specific_career_recommendations llm profile top3 txt)).length ≤ 3) := by
  unfold generate_specific_career_recommendations
  cases llm with
  | some proposed =>
    dsimp only [filter_and_fill]
    have hgood : goodByCat (fillAll (orderedCategories top3)
        (proposed.foldl (filterStep (orderedCategories top3))
          ((dedupKeys (orderedCategories top3)).map (fun c => (c, ([] : List RecItem)))))) :=
      goodByCat_fillAll _ _ (goodByCat_filterFold _ proposed _ (goodByCat_init _))
    have hgc : ∀ c, ∀ it ∈ ((slookup c (fillAll (orderedCategories top3)
        (proposed.foldl (filterStep (orderedCategories top3))
          ((dedupKeys (orderedCategories top3)).map
            (fun c => (c, ([] : List RecItem))))))).getD []).take 3,
        it.category = c ∧ it.career ∈ allowedCareers c := by
      intro c it hit
      have hit2 := List.take_subset 3 _ hit
      cases hsl : slookup c (fillAll (orderedCategories top3)
          (proposed.foldl (filterStep (orderedCategories top3))
            ((dedupKeys (orderedCategories top3)).map
              (fun c => (c, ([] : List RecItem)))))) with
      | none =>
        rw [hsl] at hit2
        exact absurd hit2 (List.not_mem_nil it)
      | some l =>
        rw [hsl] at hit2
        exact hgood (c, l) (slookup_mem _ _ _ hsl) it hit2
    rw [flattenByCat_eq_bind]
    constructor
    · intro it hit
      have hf := bind_item_facts _ _ hgc it hit
      exact ⟨hf.1, orderedCategories_sub top3 _ hf.2⟩
    · intro c0
      refine bind_count_le _ (fun c it h => (hgc c it h).1) (fun c => ?_) _ hnd c0
      rw [List.length_take]
      exact min_le_left _ _
  | none =>
    dsimp only []
    rw [foldl_append_eq_bind, List.nil_append]
    have hgc : ∀ c, ∀ it ∈ ((allowedCareers c).take 3).map (fun name =>
        ({ career := name, category := c,
           explanation := "Seleccionada del catálogo autorizado por coincidencia de categoría." } :
          RecItem)),
        it.category = c ∧ it.career ∈ allowedCareers c := by
      intro c it hit
      obtain ⟨name, hn, heq⟩ := List.mem_map.mp hit
      subst heq
      exact ⟨rfl, List.take_subset 3 _ hn⟩
    constructor
    · intro it hit
      have hf := bind_item_facts _ _ hgc it hit
      exact ⟨hf.1, orderedCategories_sub top3 _ hf.2⟩
    · intro c0
      refine bind_count_le _ (fun c it h => (hgc c it h).1) (fun c => ?_) _ hnd c0
      rw [List.length_map, List.length_take]
      exact min_le_left _ _

/-- Witness for C9 with a single supplied category. -/
theorem C9_witness :
    (∀ it ∈ generate_specific_career_recommendations none []
        [⟨"Tecnología", (1:ℚ)/2⟩] "",
      it.career ∈ allowedCareers it.category ∧
      it.category ∈ ([⟨"Tecnología", (1:ℚ)/2⟩] : List CatScore).map (fun i => i.category)) ∧
    (∀ c0 : String, (selWhere (fun x => x.category = c0)
      (generate_specific_career_recommendations none []
        [⟨"Tecnología", (1:ℚ)/2⟩] "")).length ≤ 3) :=
  C9_theorem none [] [⟨"Tecnología", (1:ℚ)/2⟩] "" (by decide)

/-- Counterexample for C9 as stated: supplying the category Tecnología
twice makes the fallback return six careers of that category, more than
three. -/
theorem C9_counterexample :
    (selWhere (fun x => x.category = "Tecnología")
      (generate_specific_career_recommendations none []
        [⟨"Tecnología", (1:ℚ)/2⟩, ⟨"Tecnología", (1:ℚ)/4⟩] "")).length = 6 ∧
    ¬((6 : ℕ) ≤ 3) := by
  constructor
  · decide
  · norm_num

end Kairos
